import Mathlib

/-!
# ShaderTypes.h

A development over `Strithveina/ShaderTypes.h`, the header shared between the Metal
shaders and the Swift/ObjC host code.  The header is embedded as data (its lines, in
source order, each either live code, a `//` comment holding a declaration, or the
conditional block on `__METAL_VERSION__`), together with the small part of the C front end
that gives it meaning: conditional inclusion, typedef resolution, the rule that
numbers enumerators, and two's-complement integer conversion.
-/

namespace ShaderTypes

/-! ## Syntax of the header -/

/-- Identifiers written in the header, live or inside comments. -/
inductive Ident
  | NS_ENUM
  | EnumBackingType
  | BufferIndex
  | BufferIndexVertexData
  | VertexAttribute
  | VertexAttributePosition
  | VertexAttributeColor
  | TextureIndex
  | TextureIndexColor
  | Uniforms
  | modelViewMatrix
  deriving DecidableEq, Repr

/-- Integer types a typedef of the header can name: `metal::int32_t` and `NSInteger`. -/
inductive BaseType
  | int32_t
  | NSInteger
  deriving DecidableEq, Repr

/-- Field types used by the (commented-out) struct. -/
inductive SimdType
  | matrix_float2x2
  deriving DecidableEq, Repr

/-- External headers pulled in by the file. -/
inductive ExternalHeader
  | Foundation
  | simd
  deriving DecidableEq, Repr

/-- One declaration or directive of the header. -/
inductive Decl
  /-- The macro definition `#define NS_ENUM(_type, _name) enum _name : _type _name; enum _name : _type`. -/
  | defineNSEnum
  /-- An `#import <...>` or `#include <...>` of an external header. -/
  | importHeader (h : ExternalHeader)
  /-- The alias `typedef base name;`. -/
  | typedefAlias (base : BaseType) (name : Ident)
  /-- The enumeration `typedef NS_ENUM(backing, name) { e₁ = v₁, ... };`. -/
  | nsEnum (backing : Ident) (name : Ident) (enumerators : List (Ident × Option Int))
  /-- The struct `typedef struct { ... } name;`. -/
  | typedefStruct (fields : List (SimdType × Ident)) (name : Ident)
  deriving DecidableEq, Repr

/-- One top-level region of the header. -/
inductive Line
  /-- The block `#ifdef __METAL_VERSION__ ... #else ... #endif`. -/
  | ifdefMetalVersion (thenDecls elseDecls : List Decl)
  /-- A declaration that is code. -/
  | code (d : Decl)
  /-- A declaration behind `//` on every one of its lines. -/
  | comment (d : Decl)
  deriving DecidableEq, Repr

/-- Lines 14-44 of `ShaderTypes.h`, in source order. -/
def header : List Line :=
  [ Line.ifdefMetalVersion
      [ Decl.defineNSEnum,
        Decl.typedefAlias BaseType.int32_t Ident.EnumBackingType ]
      [ Decl.importHeader ExternalHeader.Foundation,
        Decl.typedefAlias BaseType.NSInteger Ident.EnumBackingType ],
    Line.code (Decl.importHeader ExternalHeader.simd),
    Line.code (Decl.nsEnum Ident.EnumBackingType Ident.BufferIndex
      [ (Ident.BufferIndexVertexData, some 0) ]),
    Line.comment (Decl.nsEnum Ident.EnumBackingType Ident.VertexAttribute
      [ (Ident.VertexAttributePosition, some 0),
        (Ident.VertexAttributeColor, some 1) ]),
    Line.comment (Decl.nsEnum Ident.EnumBackingType Ident.TextureIndex
      [ (Ident.TextureIndexColor, some 0) ]),
    Line.comment (Decl.typedefStruct
      [ (SimdType.matrix_float2x2, Ident.modelViewMatrix) ] Ident.Uniforms) ]

/-! ## Compilation contexts -/

/-- The two contexts the header is compiled in.  The Metal compiler defines
`__METAL_VERSION__`; the host compiler does not, and there `NSInteger` comes from
Foundation with the platform's native width. -/
inductive Context
  | shader
  | host (nsIntegerBits : Nat)
  deriving DecidableEq, Repr

/-- Whether `__METAL_VERSION__` is defined. -/
def Context.metalVersionDefined : Context → Bool
  | Context.shader => true
  | Context.host _ => false

/-- Width in bits of an integer type, when the context knows the type. -/
def Context.bits : Context → BaseType → Option Nat
  | _, BaseType.int32_t => some 32
  | Context.host w, BaseType.NSInteger => some w
  | Context.shader, BaseType.NSInteger => none

/-! ## Preprocessing -/

/-- Declarations a line contributes once comments are dropped and the conditional
is decided. -/
def Line.live (metal : Bool) : Line → List Decl
  | Line.ifdefMetalVersion t e => if metal then t else e
  | Line.code d => [d]
  | Line.comment _ => []

/-- Declarations a line holds inside comments. -/
def Line.commentedOut : Line → List Decl
  | Line.comment d => [d]
  | _ => []

/-- The preprocessed header. -/
def preprocess (metal : Bool) (ls : List Line) : List Decl :=
  ls.flatMap (Line.live metal)

/-- The header as seen by the compiler of a context. -/
def translationUnit (ctx : Context) : List Decl :=
  preprocess ctx.metalVersionDefined header

/-- Names a declaration introduces. -/
def Decl.declaredNames : Decl → List Ident
  | Decl.defineNSEnum => [Ident.NS_ENUM]
  | Decl.importHeader _ => []
  | Decl.typedefAlias _ n => [n]
  | Decl.nsEnum _ n es => n :: es.map Prod.fst
  | Decl.typedefStruct fs n => n :: fs.map Prod.snd

/-- Names the header itself introduces in a context. -/
def liveSymbols (ctx : Context) : List Ident :=
  (translationUnit ctx).flatMap Decl.declaredNames

/-- Names that occur only in declarations that are commented out. -/
def commentedSymbols : List Ident :=
  (header.flatMap Line.commentedOut).flatMap Decl.declaredNames

/-! ## Typedefs and enumerations -/

/-- The integer type a typedef name stands for. -/
def resolveTypedef (ds : List Decl) (n : Ident) : Option BaseType :=
  ds.findSome? fun d =>
    match d with
    | Decl.typedefAlias b m => if m = n then some b else none
    | _ => none

/-- The backing typedef and enumerator list of the enumeration called `n`. -/
def findEnum (ds : List Decl) (n : Ident) : Option (Ident × List (Ident × Option Int)) :=
  ds.findSome? fun d =>
    match d with
    | Decl.nsEnum b m es => if m = n then some (b, es) else none
    | _ => none

/-- C numbering of enumerators: an initialiser fixes the value, otherwise it is the
previous value plus one, starting from the given one. -/
def assignValues : Int → List (Ident × Option Int) → List (Ident × Int)
  | _, [] => []
  | next, (n, none) :: rest => (n, next) :: assignValues (next + 1) rest
  | _, (n, some v) :: rest => (n, v) :: assignValues (v + 1) rest

/-- The backing integer type of an enumeration in a context. -/
def enumBackingType (ctx : Context) (n : Ident) : Option BaseType := do
  let (b, _) ← findEnum (translationUnit ctx) n
  resolveTypedef (translationUnit ctx) b

/-- Width in bits of the backing type of an enumeration in a context. -/
def enumBits (ctx : Context) (n : Ident) : Option Nat := do
  let t ← enumBackingType ctx n
  ctx.bits t

/-! ## Machine integers -/

/-- Membership in the range of the signed `w`-bit type. -/
def inRange (w : Nat) (v : Int) : Bool :=
  decide (-(2 : Int) ^ (w - 1) ≤ v ∧ v < (2 : Int) ^ (w - 1))

/-- Two's-complement bit pattern of an integer in `w` bits. -/
def toBits (w : Nat) (v : Int) : Nat :=
  (v % (2 : Int) ^ w).toNat

/-- The signed integer a `w`-bit pattern stands for. -/
def ofBits (w : Nat) (n : Nat) : Int :=
  if n % 2 ^ w < 2 ^ (w - 1) then ((n % 2 ^ w : Nat) : Int)
  else ((n % 2 ^ w : Nat) : Int) - (2 : Int) ^ w

/-- Integer conversion of a `src`-bit signed pattern to a `dst`-bit one. -/
def convert (src dst : Nat) (n : Nat) : Nat :=
  toBits dst (ofBits src n)

/-! ## Enumerator values -/

/-- The enumerators of an enumeration with their values; the enumeration is
rejected when a value does not fit its fixed backing type. -/
def enumerators (ctx : Context) (n : Ident) : Option (List (Ident × Int)) := do
  let (_, es) ← findEnum (translationUnit ctx) n
  let w ← enumBits ctx n
  let vs := assignValues 0 es
  if vs.all (fun p => inRange w p.2) then some vs else none

/-- All live enumerations of a context. -/
def enumNames (ctx : Context) : List Ident :=
  (translationUnit ctx).filterMap fun d =>
    match d with
    | Decl.nsEnum _ n _ => some n
    | _ => none

/-- The integer value of an enumerator in a context. -/
def enumValue (ctx : Context) (e : Ident) : Option Int :=
  (enumNames ctx).findSome? fun n =>
    match enumerators ctx n with
    | some vs => (vs.find? (fun p => p.1 = e)).map Prod.snd
    | none => none

/-- The stored bit pattern of an enumerator in a context. -/
def enumRawBits (ctx : Context) (e : Ident) : Option Nat :=
  (enumNames ctx).findSome? fun n =>
    match enumerators ctx n, enumBits ctx n with
    | some vs, some w => (vs.find? (fun p => p.1 = e)).map fun p => toBits w p.2
    | _, _ => none

/-! ## Facts about the header -/

/-- Zero lies in the range of every signed width. -/
theorem inRange_zero (w : Nat) : inRange w 0 = true := by
  have h : (0 : Int) < (2 : Int) ^ (w - 1) := by positivity
  simp only [inRange, decide_eq_true_eq]
  constructor
  · linarith
  · exact h

/-- Zero has the all-zero bit pattern in every width. -/
theorem toBits_zero (w : Nat) : toBits w 0 = 0 := by
  simp [toBits]

/-- The all-zero bit pattern stands for zero in every width. -/
theorem ofBits_zero (w : Nat) : ofBits w 0 = 0 := by
  simp [ofBits]

/-- In the shader context `BufferIndex` is backed by `metal::int32_t`. -/
theorem enumBackingType_shader :
    enumBackingType Context.shader Ident.BufferIndex = some BaseType.int32_t := by
  decide

/-- In the host context `BufferIndex` is backed by `NSInteger`. -/
theorem enumBackingType_host (w : Nat) :
    enumBackingType (Context.host w) Ident.BufferIndex = some BaseType.NSInteger := by
  rfl

/-- In the shader context `BufferIndex` is 32 bits wide. -/
theorem enumBits_shader : enumBits Context.shader Ident.BufferIndex = some 32 := by
  decide

/-- In the host context `BufferIndex` has the width of `NSInteger`. -/
theorem enumBits_host (w : Nat) : enumBits (Context.host w) Ident.BufferIndex = some w := by
  rfl

/-- The enumerator list of `BufferIndex` in the shader context. -/
theorem enumerators_shader :
    enumerators Context.shader Ident.BufferIndex
      = some [(Ident.BufferIndexVertexData, 0)] := by
  decide

/-- The enumerator list of `BufferIndex` in the host context, whatever the width. -/
theorem enumerators_host (w : Nat) :
    enumerators (Context.host w) Ident.BufferIndex
      = some [(Ident.BufferIndexVertexData, 0)] := by
  have hf : findEnum (translationUnit (Context.host w)) Ident.BufferIndex
      = some (Ident.EnumBackingType, [(Ident.BufferIndexVertexData, some 0)]) := rfl
  simp [enumerators, hf, enumBits_host, assignValues, inRange_zero]

/-- The only live enumeration is `BufferIndex`, in either context. -/
theorem enumNames_eq (ctx : Context) : enumNames ctx = [Ident.BufferIndex] := by
  cases ctx <;> rfl

/-- Value of `BufferIndexVertexData` in the shader context. -/
theorem enumValue_shader :
    enumValue Context.shader Ident.BufferIndexVertexData = some 0 := by
  decide

/-- Value of `BufferIndexVertexData` in the host context. -/
theorem enumValue_host (w : Nat) :
    enumValue (Context.host w) Ident.BufferIndexVertexData = some 0 := by
  simp [enumValue, enumNames_eq, enumerators_host]

/-- Stored bits of `BufferIndexVertexData` in the shader context. -/
theorem enumRawBits_shader :
    enumRawBits Context.shader Ident.BufferIndexVertexData = some 0 := by
  decide

/-- Stored bits of `BufferIndexVertexData` in the host context. -/
theorem enumRawBits_host (w : Nat) :
    enumRawBits (Context.host w) Ident.BufferIndexVertexData = some 0 := by
  simp [enumRawBits, enumNames_eq, enumerators_host, enumBits_host, toBits_zero]

/-- The enumerator list of `BufferIndex` in any context. -/
theorem enumerators_eq (ctx : Context) :
    enumerators ctx Ident.BufferIndex = some [(Ident.BufferIndexVertexData, 0)] := by
  cases ctx with
  | shader => exact enumerators_shader
  | host w => exact enumerators_host w

/-- The names the header introduces in a context. -/
theorem liveSymbols_eq (ctx : Context) :
    liveSymbols ctx =
      (if ctx.metalVersionDefined then [Ident.NS_ENUM] else [])
        ++ [Ident.EnumBackingType, Ident.BufferIndex, Ident.BufferIndexVertexData] := by
  cases ctx <;> rfl

/-- The names that occur only in commented-out declarations. -/
theorem commentedSymbols_eq :
    commentedSymbols =
      [Ident.VertexAttribute, Ident.VertexAttributePosition, Ident.VertexAttributeColor,
       Ident.TextureIndex, Ident.TextureIndexColor, Ident.Uniforms,
       Ident.modelViewMatrix] := by
  rfl

/-! ## The claims -/

/-- C1: the value of `BufferIndexVertexData` is the same in both compilation contexts.
Compiling the header with `__METAL_VERSION__` defined gives `BufferIndex` the backing
type `metal::int32_t`, compiling it without gives `NSInteger` (of any width `w`); the
integer value of `BufferIndexVertexData` in the shader context equals its value in the
host context, both are 0, and so are the stored bit patterns. -/
theorem C1_vertexData_value_agrees (w : Nat) :
    enumBackingType Context.shader Ident.BufferIndex = some BaseType.int32_t ∧
    enumBackingType (Context.host w) Ident.BufferIndex = some BaseType.NSInteger ∧
    enumValue Context.shader Ident.BufferIndexVertexData
      = enumValue (Context.host w) Ident.BufferIndexVertexData ∧
    enumValue Context.shader Ident.BufferIndexVertexData = some 0 ∧
    enumValue (Context.host w) Ident.BufferIndexVertexData = some 0 ∧
    enumRawBits Context.shader Ident.BufferIndexVertexData = some 0 ∧
    enumRawBits (Context.host w) Ident.BufferIndexVertexData = some 0 := by
  refine ⟨enumBackingType_shader, enumBackingType_host w, ?_, enumValue_shader,
    enumValue_host w, enumRawBits_shader, enumRawBits_host w⟩
  rw [enumValue_shader, enumValue_host]

/-- C2: `BufferIndex` is backed by a 32-bit signed integer in the shader context and by
`NSInteger` of width `w` in the host context, and for `w = 32` or `w = 64` the value `v`
of `BufferIndexVertexData` (the same in both contexts) lies in the signed range of the
`w`-bit and of the 32-bit type, and its 32-bit pattern converted to `w` bits and back
is unchanged, standing for `v` at every stage. -/
theorem C2_vertexData_survives_width (w : Nat) (hw : w = 32 ∨ w = 64) :
    enumBackingType Context.shader Ident.BufferIndex = some BaseType.int32_t ∧
    enumBits Context.shader Ident.BufferIndex = some 32 ∧
    enumBackingType (Context.host w) Ident.BufferIndex = some BaseType.NSInteger ∧
    enumBits (Context.host w) Ident.BufferIndex = some w ∧
    ∃ v : Int,
      enumValue Context.shader Ident.BufferIndexVertexData = some v ∧
      enumValue (Context.host w) Ident.BufferIndexVertexData = some v ∧
      inRange w v = true ∧ inRange 32 v = true ∧
      ofBits w (convert 32 w (toBits 32 v)) = v ∧
      convert w 32 (convert 32 w (toBits 32 v)) = toBits 32 v ∧
      ofBits 32 (convert w 32 (convert 32 w (toBits 32 v))) = v := by
  refine ⟨enumBackingType_shader, enumBits_shader, enumBackingType_host w, enumBits_host w,
    0, enumValue_shader, enumValue_host w, inRange_zero w, inRange_zero 32, ?_, ?_, ?_⟩
  · rcases hw with rfl | rfl <;> simp [convert, toBits_zero, ofBits_zero]
  · rcases hw with rfl | rfl <;> simp [convert, toBits_zero, ofBits_zero]
  · rcases hw with rfl | rfl <;> simp [convert, toBits_zero, ofBits_zero]

/-- Witness of C2 at the 64-bit host. -/
theorem C2_vertexData_survives_width_witness :
    (64 = 32 ∨ 64 = 64) ∧
    enumBits (Context.host 64) Ident.BufferIndex = some 64 ∧
    ∃ v : Int,
      enumValue Context.shader Ident.BufferIndexVertexData = some v ∧
      enumValue (Context.host 64) Ident.BufferIndexVertexData = some v ∧
      inRange 64 v = true ∧ inRange 32 v = true ∧
      convert 64 32 (convert 32 64 (toBits 32 v)) = toBits 32 v := by
  obtain ⟨_, _, _, hb, v, hs, hh, r1, r2, _, hc, _⟩ :=
    C2_vertexData_survives_width 64 (Or.inr rfl)
  exact ⟨Or.inr rfl, hb, v, hs, hh, r1, r2, hc⟩

/-- C3: in either compilation context `BufferIndex` is the only live enumeration and
has exactly one enumerator, `BufferIndexVertexData`; the map from its enumerators to
their values is injective and its image is exactly the set containing 0; and none of
the names of the commented-out `VertexAttribute`, `TextureIndex` and `Uniforms`
declarations is a live symbol or has an enumerator value. -/
theorem C3_single_enumerator (ctx : Context) :
    enumNames ctx = [Ident.BufferIndex] ∧
    (∃ es : List (Ident × Int),
      enumerators ctx Ident.BufferIndex = some es ∧
      es.map Prod.fst = [Ident.BufferIndexVertexData] ∧
      (∀ p ∈ es, p.1 = Ident.BufferIndexVertexData) ∧
      (∀ p ∈ es, ∀ q ∈ es, p.2 = q.2 → p.1 = q.1) ∧
      (∀ v : Int, v ∈ es.map Prod.snd ↔ v = 0)) ∧
    commentedSymbols =
      [Ident.VertexAttribute, Ident.VertexAttributePosition, Ident.VertexAttributeColor,
       Ident.TextureIndex, Ident.TextureIndexColor, Ident.Uniforms,
       Ident.modelViewMatrix] ∧
    (∀ s ∈ commentedSymbols, s ∉ liveSymbols ctx) ∧
    (∀ s ∈ commentedSymbols, enumValue ctx s = none) := by
  refine ⟨enumNames_eq ctx, ⟨[(Ident.BufferIndexVertexData, 0)], enumerators_eq ctx, rfl,
    ?_, ?_, ?_⟩, commentedSymbols_eq, ?_, ?_⟩
  · intro p hp
    simp at hp
    simp [hp]
  · intro p hp q hq _
    simp at hp hq
    simp [hp, hq]
  · intro v
    simp
  · intro s hs
    rw [commentedSymbols_eq] at hs
    rw [liveSymbols_eq]
    cases ctx <;> simp [Context.metalVersionDefined] at hs ⊢ <;>
      rcases hs with rfl | rfl | rfl | rfl | rfl | rfl | rfl <;> simp
  · intro s hs
    rw [commentedSymbols_eq] at hs
    simp at hs
    rcases hs with rfl | rfl | rfl | rfl | rfl | rfl | rfl <;>
      simp [enumValue, enumNames_eq, enumerators_eq]

end ShaderTypes
